import Mathlib

/-!
# Shallow embedding of `src/io.rs` (TFBToolset output/reporting layer)

This file embeds the `Logger` and verification-reporting code of
`src/io.rs` in Lean 4 and proves the specification claims about it.

Modelling conventions:
* Filesystem paths are lists of components (`Path := List String`).
* Filesystem behaviour (existence checks, directory/file creation,
  open/write success) is supplied by explicit oracle structures, since the
  Rust code only branches on the success of those operations.
* The `colored` crate renders a styled string as
  `ESC '[' <code> 'm' <text> ESC '[' '0' 'm'`; Rust's `format!` width
  specifiers (`{:8}`, `{:13}`, `{:5}`) pad the *inner* text of a
  `ColoredString` because `colored`'s `Display` forwards the formatter to
  the inner `str`, whose `Display` applies `Formatter::pad`.  We assume
  colors are globally enabled (the crate's default on a tty).
* `strip_ansi_escapes::strip` is modelled by a three-state character
  machine that removes CSI sequences (`ESC '[' ... <final byte>`); a bare
  `ESC` swallows the following character, as the underlying VTE parser
  treats it as the start of an escape.
-/

set_option autoImplicit false

namespace TFB

abbrev Path := List String

/-- Rust `char::is_whitespace`, restricted to the ASCII whitespace that the
`Logger` code can actually meet (Lean's `Char.isWhitespace`). -/
def rustIsWhitespace (c : Char) : Bool := c.isWhitespace

/-- Rust `str::trim(..).is_empty()`: the line consists solely of whitespace. -/
def isBlank (s : String) : Bool := s.data.all rustIsWhitespace

/-- Rust `str::trim_end`: drop trailing whitespace characters. -/
def rustTrimEnd (s : String) : String :=
  String.mk ((s.data.reverse.dropWhile rustIsWhitespace).reverse)

/-- Split a character list at every `'\n'`; always returns at least one
(possibly empty) segment. -/
def splitNewlines : List Char → List (List Char)
  | [] => [[]]
  | c :: cs =>
      match splitNewlines cs with
      | [] => []
      | seg :: rest =>
          if c = '\n' then [] :: seg :: rest else (c :: seg) :: rest

/-- Rust `str::lines`: split on `'\n'`, drop the final empty segment (the
one produced by a trailing newline, or the sole segment of `""`), and
strip one trailing `'\r'` from each line. -/
def rustLines (s : String) : List String :=
  let segs := splitNewlines s.data
  let segs := if segs.getLast? = some [] then segs.dropLast else segs
  segs.map fun seg =>
    String.mk (if seg.getLast? = some '\r' then seg.dropLast else seg)

/-- The ASCII escape character `0x1b`. -/
def escChar : Char := Char.ofNat 27

/-- `ESC '[' code 'm' text ESC '[0m'`: how the `colored` crate renders a
styled string when colors are enabled. -/
def colorize (code : String) (s : String) : String :=
  String.mk [escChar] ++ "[" ++ code ++ "m" ++ s ++ String.mk [escChar] ++ "[0m"

def cyan (s : String) : String := colorize "36" s
def red (s : String) : String := colorize "31" s
def yellow (s : String) : String := colorize "33" s
def green (s : String) : String := colorize "32" s
/-- `.white().bold()` as used for the console prefix. -/
def whiteBold (s : String) : String := colorize "1;37" s
/-- `"".clear()` in `colored` carries no styling, so it displays as `""`. -/
def clearSeq : String := ""

/-- Rust `format!("{:w}", s)` for a string: left-align, pad to width `w`
with spaces (`Formatter::pad` counts chars). -/
def padTo (s : String) (w : Nat) : String :=
  s ++ String.mk (List.replicate (w - s.length) ' ')

/-! ## ANSI escape stripping (`strip_ansi_escapes::strip`) -/

inductive StripState where
  | normal
  | sawEsc
  | inCsi
deriving DecidableEq

/-- One step of the stripping machine: next state and the emitted char. -/
def stripStep (st : StripState) (c : Char) : StripState × Option Char :=
  match st with
  | .normal => if c = escChar then (.sawEsc, none) else (.normal, some c)
  | .sawEsc => if c = '[' then (.inCsi, none) else (.normal, none)
  | .inCsi =>
      if 0x40 ≤ c.toNat ∧ c.toNat ≤ 0x7e then (.normal, none) else (.inCsi, none)

/-- Output of the stripping machine run from state `st`. -/
def stripRun (st : StripState) : List Char → List Char
  | [] => []
  | c :: cs =>
      match stripStep st c with
      | (st', some c') => c' :: stripRun st' cs
      | (st', none) => stripRun st' cs

/-- Final state of the stripping machine run from state `st`. -/
def stripEnd (st : StripState) : List Char → StripState
  | [] => st
  | c :: cs => stripEnd (stripStep st c).1 cs

/-- `strip_ansi_escapes::strip` on a string. -/
def stripAnsi (s : String) : String := String.mk (stripRun .normal s.data)

/-! ## The `Logger` -/

/-- The `Test` values consumed by `Logger::set_test`; only `get_name` is
used. -/
structure Test where
  name : String
deriving DecidableEq

def Test.get_name (t : Test) : String := t.name

/-- `Logger` (src/io.rs:20-25).  The Rust field `prefix` is a Lean keyword,
so it is embedded as `prefix_`. -/
structure Logger where
  prefix_ : Option String
  log_dir : Option Path
  log_file : Option Path
  quiet : Bool
deriving DecidableEq

/-- `Logger::default` (src/io.rs:32-39). -/
def Logger.default : Logger :=
  { prefix_ := none, log_dir := none, log_file := none, quiet := false }

/-- `Logger::with_prefix` (src/io.rs:44-51). -/
def Logger.with_prefix (p : String) : Logger :=
  { prefix_ := some p, log_dir := none, log_file := none, quiet := false }

/-- `Logger::in_dir` (src/io.rs:54-63). -/
def Logger.in_dir (d : Path) : Logger :=
  { prefix_ := none, log_dir := some d, log_file := none, quiet := false }

/-- Filesystem oracle for `set_test` / `set_log_file`: whether a path
exists, and whether `create_dir_all` / `File::create` succeed on it. -/
structure DirFS where
  pathExists : Path → Bool
  createDirOk : Path → Bool
  createFileOk : Path → Bool

/-- `Logger::set_test` (src/io.rs:74-87).  Note the early `return` when the
test sub-directory is absent and `create_dir_all` fails: in that case the
whole method exits before `self.prefix` is assigned. -/
def Logger.set_test (fs : DirFS) (l : Logger) (test : Test) : Logger :=
  match l.log_dir with
  | some log_dir =>
      let log_dir' := log_dir ++ [test.get_name]
      if ¬ fs.pathExists log_dir' ∧ ¬ fs.createDirOk log_dir' then
        l
      else
        { l with log_dir := some log_dir', prefix_ := some test.get_name }
  | none => { l with prefix_ := some test.get_name }

/-- `Logger::set_log_file` (src/io.rs:94-103). -/
def Logger.set_log_file (fs : DirFS) (l : Logger) (file_name : String) :
    Logger :=
  match l.log_dir with
  | some log_dir =>
      let log_file := log_dir ++ [file_name]
      if ¬ fs.pathExists log_file ∧ ¬ fs.createFileOk log_file then
        l
      else
        { l with log_file := some log_file }
  | none => l

/-! ## `Logger::log` -/

/-- Oracle for the I/O performed inside `log`: whether
`OpenOptions::open` on the bound file succeeds, and whether `write_all`
calls succeed. -/
structure LogFS where
  openOk : Bool
  writeOk : Bool

/-- How a `log` call terminates: `Ok(())`, a propagated I/O `Err`, or a
panic (`unwrap` on a failed open). -/
inductive LogResult where
  | ok
  | ioError
  | panicked
deriving DecidableEq

/-- The console text printed for one non-blank line (src/io.rs:123-128):
the bold-white prefix and `": "` when a prefix is set, then the line with
trailing whitespace trimmed, then a newline.  Empty when `quiet`. -/
def consoleChunk (l : Logger) (line : String) : String :=
  if l.quiet then ""
  else
    (match l.prefix_ with
     | some p => whiteBold p ++ ": "
     | none => "") ++ rustTrimEnd line ++ "\n"

/-- Per-line fan-out of `Logger::log` (src/io.rs:107-132) over an already
split list of lines.  Returns the result code, the bytes appended to the
log file, and the bytes printed to the console.  A failed `write_all` is
modelled as writing nothing for that line (partial writes are not
observable by any claim). -/
def Logger.logLines (l : Logger) (fs : LogFS) :
    List String → LogResult × String × String
  | [] => (.ok, "", "")
  | line :: rest =>
      if isBlank line then l.logLines fs rest
      else
        match l.log_file with
        | some _ =>
            if ¬ fs.openOk then (.panicked, "", "")
            else if ¬ fs.writeOk then (.ioError, "", "")
            else
              let out := l.logLines fs rest
              (out.1, (stripAnsi line ++ "\n") ++ out.2.1,
                consoleChunk l line ++ out.2.2)
        | none =>
            let out := l.logLines fs rest
            (out.1, out.2.1, consoleChunk l line ++ out.2.2)

/-- `Logger::log` (src/io.rs:107-132). -/
def Logger.log (l : Logger) (fs : LogFS) (text : String) :
    LogResult × String × String :=
  l.logLines fs (rustLines text)

/-- `Logger::error` (src/io.rs:136-141). -/
def Logger.error (l : Logger) (fs : LogFS) (text : String) :
    LogResult × String × String :=
  l.log fs (red text)

/-! ## Verification records and `report_verifications` -/

/-- An error or warning entry of a `Verification`; only `short_message` is
read by the reporting code. -/
structure VerificationMessage where
  short_message : String
deriving DecidableEq

/-- `docker::Verification`, as consumed by `report_verifications`. -/
structure Verification where
  framework_name : String
  type_name : String
  errors : List VerificationMessage
  warnings : List VerificationMessage
deriving DecidableEq

/-- One insertion of the grouping loop of `report_verifications`
(src/io.rs:213-222): append the verification to its framework's list,
creating the group if absent. -/
def insertVerification (groups : List (String × List Verification))
    (v : Verification) : List (String × List Verification) :=
  match groups with
  | [] => [(v.framework_name, [v])]
  | (name, vs) :: rest =>
      if name = v.framework_name then (name, vs ++ [v]) :: rest
      else (name, vs) :: insertVerification rest v

/-- The framework → outcomes grouping built by `report_verifications`.
The Rust code stores the groups in a `HashMap`, whose iteration order is
unspecified; the embedding fixes first-insertion order for the groups.
Every claim proved about the grouping is independent of the group order
(it constrains only the per-group contents and their relative order). -/
def groupByFramework (vs : List Verification) :
    List (String × List Verification) :=
  vs.foldl insertVerification []

/-- The text handed to `logger.log` for one verification outcome
(src/io.rs:236-259), colors included.  The `.get(0).unwrap()` calls of the
Rust code are embedded as `head?` matches whose `none` branch yields
`none`, modelling the potential panic. -/
def renderOutcome (v : Verification) : Option String :=
  if ¬ v.errors.isEmpty then
    match v.errors.head? with
    | some e =>
        some (cyan (padTo "|" 8) ++ cyan (padTo v.type_name 13) ++ ": " ++
          red (padTo "ERROR" 5) ++ " - " ++ e.short_message)
    | none => none
  else if ¬ v.warnings.isEmpty then
    match v.warnings.head? with
    | some w =>
        some (cyan (padTo "|" 8) ++ cyan (padTo v.type_name 13) ++ ": " ++
          yellow (padTo "WARN" 5) ++ " - " ++ w.short_message)
    | none => none
  else
    some (cyan (padTo "|" 8) ++ cyan (padTo v.type_name 13) ++ ": " ++
      green (padTo "PASS" 5))

/-- The 79-character border of the summary (src/io.rs:223-228). -/
def border_buffer : String := String.mk (List.replicate 79 '=')

/-- The 79-character separator of the summary (src/io.rs:223-228). -/
def mid_line_buffer : String := String.mk (List.replicate 79 '-')

/-- Option-valued map over a list: `none` as soon as `f` yields `none`. -/
def mapOption {α β : Type} (f : α → Option β) : List α → Option (List β)
  | [] => some []
  | a :: as =>
      match f a, mapOption f as with
      | some b, some bs => some (b :: bs)
      | _, _ => none

/-- The texts emitted for one framework group: the `"| <framework>"`
header (src/io.rs:234) followed by one text per outcome. -/
def renderGroup (g : String × List Verification) : Option (List String) :=
  match mapOption renderOutcome g.2 with
  | some outcomeLines =>
      some ((cyan "|" ++ " " ++ cyan g.1) :: outcomeLines)
  | none => none

/-- The ordered list of texts that `report_verifications`
(src/io.rs:207-265) hands to `logger.log`, one per `log` call; `none`
models a panic inside `renderOutcome`.  `logger.set_log_file` only mutates
the logger, so the emitted texts do not depend on it. -/
def reportTexts (verifications : List Verification) : Option (List String) :=
  match mapOption renderGroup (groupByFramework verifications) with
  | some groupBlocks =>
      some ([cyan border_buffer, cyan "Verification Summary",
        cyan mid_line_buffer] ++ groupBlocks.flatten ++
        [cyan border_buffer ++ clearSeq])
  | none => none

/-! ## `get_tfb_dir` -/

inductive ToolsetError where
  | invalidFrameworkBenchmarksDirError
  | ioError
deriving DecidableEq

/-- Environment oracle for `get_tfb_dir`: the `TFB_HOME` variable,
`dirs::home_dir()`, `env::current_dir()`, and filesystem existence. -/
structure TfbEnv where
  tfb_home : Option String
  home_dir : Option Path
  current_dir : Option Path
  pathExists : Path → Bool

/-- The root directory `get_tfb_dir` resolves before checking for the
`frameworks` sub-directory (src/io.rs:176-187). -/
def resolveTfbPath (env : TfbEnv) : Path :=
  match env.tfb_home with
  | some tfb_home => [tfb_home]
  | none =>
      match env.home_dir with
      | some home_dir =>
          let dotTfb := home_dir ++ [".tfb"]
          if ¬ env.pathExists dotTfb then
            match env.current_dir with
            | some current_dir => current_dir
            | none => dotTfb
          else dotTfb
      | none => []

/-- `get_tfb_dir` (src/io.rs:175-196). -/
def get_tfb_dir (env : TfbEnv) : Except ToolsetError Path :=
  let tfb_path := resolveTfbPath env
  let frameworks_dir := tfb_path ++ ["frameworks"]
  if ¬ env.pathExists frameworks_dir then
    .error .invalidFrameworkBenchmarksDirError
  else
    .ok tfb_path

/-! ## Auxiliary definitions used by the proofs -/

/-- Concatenation of a list of strings. -/
def concatAll : List String → String
  | [] => ""
  | s :: rest => s ++ concatAll rest

/-- Association lookup into the grouping: the outcome list of the first
group carrying the given framework name. -/
def lookupGroup (groups : List (String × List Verification)) (n : String) :
    List Verification :=
  match groups.find? (fun g => g.1 == n) with
  | some g => g.2
  | none => []

/-! ## Concrete fixtures for witnesses and counterexamples -/

/-- Fixture: a plain Logger with a bound log file (no prefix, not quiet). -/
def plainFileLogger : Logger :=
  { prefix_ := none, log_dir := none,
    log_file := some ["benchmark.txt"], quiet := false }

/-- Fixture: a Logger with both a console prefix and a bound log file. -/
def prefixedFileLogger : Logger :=
  { prefix_ := some "gemini", log_dir := none,
    log_file := some ["benchmark.txt"], quiet := false }

/-- Fixture: a quiet Logger with a bound log file. -/
def quietFileLogger : Logger :=
  { prefix_ := none, log_dir := none,
    log_file := some ["benchmark.txt"], quiet := true }

/-- Fixture: a console-only Logger carrying a prefix, built through the
`with_prefix` factory. -/
def consoleLogger : Logger := Logger.with_prefix "gemini"

/-- Fixture: a Logger rooted at a results directory. -/
def dirLogger : Logger :=
  { prefix_ := none, log_dir := some ["results", "20200619191252"],
    log_file := none, quiet := false }

/-- Fixture: an all-succeeding log-I/O oracle. -/
def okLogFS : LogFS := { openOk := true, writeOk := true }

/-- Fixture: a filesystem oracle on which nothing exists and every
creation fails. -/
def failFS : DirFS :=
  { pathExists := fun _ => false, createDirOk := fun _ => false,
    createFileOk := fun _ => false }

/-- Fixture: a filesystem oracle on which every path exists and every
creation succeeds. -/
def allOkFS : DirFS :=
  { pathExists := fun _ => true, createDirOk := fun _ => true,
    createFileOk := fun _ => true }

/-- Fixture: the spec §8 scenario outcome `plaintext` with one `timeout`
error (and a warning, to exercise the error-over-warning priority). -/
def vPlaintext : Verification :=
  { framework_name := "gemini", type_name := "plaintext",
    errors := [{ short_message := "timeout" }],
    warnings := [{ short_message := "slow" }] }

/-- Fixture: the spec §8 scenario outcome `json` with no errors or
warnings. -/
def vJson : Verification :=
  { framework_name := "gemini", type_name := "json",
    errors := [], warnings := [] }

/-- Fixture: an environment with `TFB_HOME` set and no `frameworks`
sub-directory anywhere. -/
def emptyEnv : TfbEnv :=
  { tfb_home := some "tfb", home_dir := none, current_dir := none,
    pathExists := fun _ => false }

/-! ## Helper lemmas about the stripping machine -/

theorem stripRun_append (st : StripState) (a b : List Char) :
    stripRun st (a ++ b) = stripRun st a ++ stripRun (stripEnd st a) b := by
  induction a generalizing st with
  | nil => simp [stripRun, stripEnd]
  | cons c cs ih =>
      simp only [List.cons_append, stripRun, stripEnd]
      rcases h : stripStep st c with ⟨st', oc⟩
      cases oc <;> simp [ih]

theorem stripEnd_append (st : StripState) (a b : List Char) :
    stripEnd st (a ++ b) = stripEnd (stripEnd st a) b := by
  induction a generalizing st with
  | nil => simp [stripEnd]
  | cons c cs ih =>
      simp only [List.cons_append, stripEnd]
      exact ih _

theorem stripAnsi_append (a b : String)
    (h : stripEnd .normal a.data = .normal) :
    stripAnsi (a ++ b) = stripAnsi a ++ stripAnsi b := by
  simp only [stripAnsi, String.data_append, stripRun_append, h]
  rfl

theorem stripAnsi_newline : stripAnsi "\n" = "\n" := by decide

/-! ## Helper lemmas about `Logger.logLines` -/

theorem logLines_no_file (l : Logger) (fs : LogFS)
    (h : l.log_file = none) :
    ∀ lines, (l.logLines fs lines).1 = .ok := by
  intro lines
  induction lines with
  | nil => rfl
  | cons line rest ih =>
      unfold Logger.logLines
      by_cases hb : isBlank line = true
      · simpa [hb] using ih
      · simp [hb, h, ih]

/-- With a bound file and successful open/write, `logLines` succeeds and
each sink is the concatenation of its per-line chunks over the non-blank
lines. -/
theorem logLines_ok_spec (l : Logger) (fs : LogFS) (p : Path)
    (hf : l.log_file = some p) (ho : fs.openOk = true)
    (hw : fs.writeOk = true) :
    ∀ lines, l.logLines fs lines =
      (.ok,
        concatAll ((lines.filter (fun x => !(isBlank x))).map
          (fun x => stripAnsi x ++ "\n")),
        concatAll ((lines.filter (fun x => !(isBlank x))).map
          (consoleChunk l))) := by
  intro lines
  induction lines with
  | nil => rfl
  | cons line rest ih =>
      unfold Logger.logLines
      by_cases hb : isBlank line = true
      · simpa [hb] using ih
      · simp [hb, hf, ho, hw, ih, concatAll]

/-- Changing only the `quiet` flag never changes the result code or the
file sink, and `quiet = true` silences the console sink. -/
theorem logLines_quiet (l : Logger) (fs : LogFS) :
    ∀ lines,
      (({ l with quiet := true } : Logger).logLines fs lines).2.2 = "" ∧
      (({ l with quiet := true } : Logger).logLines fs lines).1 =
        (({ l with quiet := false } : Logger).logLines fs lines).1 ∧
      (({ l with quiet := true } : Logger).logLines fs lines).2.1 =
        (({ l with quiet := false } : Logger).logLines fs lines).2.1 := by
  intro lines
  induction lines with
  | nil => exact ⟨rfl, rfl, rfl⟩
  | cons line rest ih =>
      obtain ⟨ih1, ih2, ih3⟩ := ih
      unfold Logger.logLines
      by_cases hb : isBlank line = true
      · simp [hb, ih1, ih2, ih3]
      · rcases hfile : l.log_file with _ | p <;>
          rw [hfile] at ih1 ih2 ih3
        · simp [hb, hfile, consoleChunk, ih1, ih2, ih3]
        · by_cases ho : fs.openOk = true
          · by_cases hw : fs.writeOk = true
            · simp [hb, hfile, ho, hw, consoleChunk, ih1, ih2, ih3]
            · simp [hb, hfile, ho, hw]
          · simp [hb, hfile, ho]

theorem logLines_openFail (l : Logger) (fs : LogFS) (p : Path)
    (hf : l.log_file = some p) (ho : fs.openOk = false) :
    ∀ lines, (∃ line ∈ lines, isBlank line = false) →
      (l.logLines fs lines).1 = .panicked := by
  intro lines
  induction lines with
  | nil => rintro ⟨line, hmem, -⟩; cases hmem
  | cons line rest ih =>
      rintro ⟨w, hmem, hwb⟩
      unfold Logger.logLines
      by_cases hb : isBlank line = true
      · have hw : w ∈ rest := by
          cases hmem with
          | head => rw [hb] at hwb; cases hwb
          | tail _ h => exact h
        simpa [hb] using ih ⟨w, hw, hwb⟩
      · simp [hb, hf, ho]

theorem logLines_writeFail (l : Logger) (fs : LogFS) (p : Path)
    (hf : l.log_file = some p) (ho : fs.openOk = true)
    (hw : fs.writeOk = false) :
    ∀ lines, (∃ line ∈ lines, isBlank line = false) →
      (l.logLines fs lines).1 = .ioError := by
  intro lines
  induction lines with
  | nil => rintro ⟨line, hmem, -⟩; cases hmem
  | cons line rest ih =>
      rintro ⟨w, hmem, hwb⟩
      unfold Logger.logLines
      by_cases hb : isBlank line = true
      · have hwm : w ∈ rest := by
          cases hmem with
          | head => rw [hb] at hwb; cases hwb
          | tail _ h => exact h
        simpa [hb] using ih ⟨w, hwm, hwb⟩
      · simp [hb, hf, ho, hw]

theorem logLines_no_panic (l : Logger) (fs : LogFS) (p : Path)
    (hf : l.log_file = some p) (ho : fs.openOk = true) :
    ∀ lines, (l.logLines fs lines).1 ≠ .panicked := by
  intro lines
  induction lines with
  | nil => intro h; cases h
  | cons line rest ih =>
      unfold Logger.logLines
      by_cases hb : isBlank line = true
      · simpa [hb] using ih
      · by_cases hw : fs.writeOk = true
        · simpa [hb, hf, ho, hw] using ih
        · simp [hb, hf, ho, hw]

/-! ## Claim C2 -/

/-- C2 counterexample: with a bound log file and a failing
`OpenOptions::open`, `Logger::log` panics (the `unwrap` at
src/io.rs:115-119) instead of returning an I/O error result, so an open
failure does abort the process rather than propagate to the caller. -/
theorem claim_C2_counterexample :
    (plainFileLogger.log { openOk := false, writeOk := true } "a").1 ≠
      LogResult.ioError ∧
    (plainFileLogger.log { openOk := false, writeOk := true } "a").1 =
      LogResult.panicked := by
  decide

/-- C2 (amended): for every Logger with a bound log file, a failure of a
`write_all` call during `log` propagates as an I/O error result
(src/io.rs:120-121), and with a successful open the call never panics;
but a failure to open the file makes `log` panic (`unwrap`,
src/io.rs:115-119) rather than return an error. -/
theorem claim_C2 (l : Logger) (fs : LogFS) (text : String) (p : Path)
    (hf : l.log_file = some p) :
    (fs.openOk = true → fs.writeOk = true → (l.log fs text).1 = .ok) ∧
    (fs.openOk = true → (l.log fs text).1 ≠ .panicked) ∧
    (fs.openOk = true → fs.writeOk = false →
      (∃ line ∈ rustLines text, isBlank line = false) →
      (l.log fs text).1 = .ioError) ∧
    (fs.openOk = false →
      (∃ line ∈ rustLines text, isBlank line = false) →
      (l.log fs text).1 = .panicked) := by
  refine ⟨fun ho hw => ?_, fun ho => ?_, fun ho hw he => ?_, fun ho he => ?_⟩
  · rw [Logger.log, logLines_ok_spec l fs p hf ho hw]
  · exact logLines_no_panic l fs p hf ho (rustLines text)
  · exact logLines_writeFail l fs p hf ho hw (rustLines text) he
  · exact logLines_openFail l fs p hf ho (rustLines text) he

theorem claim_C2_witness :
    (plainFileLogger.log { openOk := true, writeOk := false } "a").1 =
      .ioError :=
  (claim_C2 plainFileLogger { openOk := true, writeOk := false } "a"
      ["benchmark.txt"] rfl).2.2.1 rfl rfl ⟨"a", by decide, by decide⟩

/-! ## Claim C3 -/

/-- C3 counterexample: when a log directory is configured, the test
sub-directory does not exist, and creating it fails, `set_test` returns
early (src/io.rs:79-81) before the `self.prefix` assignment, so the prefix
does not equal the test's name. -/
theorem claim_C3_counterexample :
    (dirLogger.set_test failFS ⟨"gemini"⟩).prefix_ ≠ some "gemini" ∧
    (dirLogger.set_test failFS ⟨"gemini"⟩).prefix_ = none := by
  decide

/-- C3 (amended): after `set_test` the Logger's prefix equals the test's
name — except when a log directory is configured, the test sub-directory
does not exist, and creating it fails, in which case `set_test` leaves the
Logger entirely unchanged (prefix included). -/
theorem claim_C3 (fs : DirFS) (l : Logger) (t : Test) :
    (l.log_dir = none → (l.set_test fs t).prefix_ = some t.get_name) ∧
    (∀ d, l.log_dir = some d →
      ((fs.pathExists (d ++ [t.get_name]) = false ∧
        fs.createDirOk (d ++ [t.get_name]) = false) →
        l.set_test fs t = l) ∧
      ((fs.pathExists (d ++ [t.get_name]) = true ∨
        fs.createDirOk (d ++ [t.get_name]) = true) →
        (l.set_test fs t).prefix_ = some t.get_name ∧
        (l.set_test fs t).log_dir = some (d ++ [t.get_name]))) := by
  constructor
  · intro h
    unfold Logger.set_test
    rw [h]
  · intro d hd
    constructor
    · rintro ⟨hp, hc⟩
      unfold Logger.set_test
      rw [hd]
      simp [hp, hc]
    · intro hor
      unfold Logger.set_test
      rw [hd]
      rcases hor with hp | hc
      · simp [hp]
      · simp [hc]

theorem claim_C3_witness :
    (dirLogger.set_test allOkFS ⟨"gemini"⟩).prefix_ = some "gemini" :=
  (((claim_C3 allOkFS dirLogger ⟨"gemini"⟩).2
      ["results", "20200619191252"] rfl).2 (Or.inl rfl)).1

/-! ## Claim C4 -/

theorem stripAnsi_line_newline (line : String)
    (h : stripEnd .normal line.data = .normal) :
    stripAnsi (line ++ "\n") = stripAnsi line ++ "\n" := by
  rw [stripAnsi_append line "\n" h, stripAnsi_newline]

theorem stripEnd_line_newline (line : String)
    (h : stripEnd .normal line.data = .normal) :
    stripEnd .normal (line ++ "\n").data = .normal := by
  rw [String.data_append, stripEnd_append, h]
  decide

/-- Over a list of lines that carry no trailing whitespace and no
unterminated escape sequence, and for a prefix-less non-quiet Logger, the
file chunks are exactly the console chunks with ANSI escapes stripped. -/
theorem concat_chunks_strip (l : Logger) (hpfx : l.prefix_ = none)
    (hq : l.quiet = false) :
    ∀ L : List String,
      (∀ line ∈ L, rustTrimEnd line = line ∧
        stripEnd .normal line.data = .normal) →
      concatAll (L.map (consoleChunk l)) =
        concatAll (L.map (fun x => x ++ "\n")) ∧
      concatAll (L.map (fun x => stripAnsi x ++ "\n")) =
        stripAnsi (concatAll (L.map (consoleChunk l))) := by
  intro L
  induction L with
  | nil => intro _; exact ⟨rfl, rfl⟩
  | cons x rest ih =>
      intro h
      have hx := h x (List.mem_cons_self x rest)
      have hrest := fun line hl => h line (List.mem_cons_of_mem x hl)
      obtain ⟨ih1, ih2⟩ := ih hrest
      have hchunk : consoleChunk l x = x ++ "\n" := by
        simp [consoleChunk, hpfx, hq, hx.1]
      constructor
      · simp [concatAll, hchunk, ih1]
      · simp only [List.map_cons, concatAll, hchunk, ih2]
        rw [stripAnsi_append (x ++ "\n") _ (stripEnd_line_newline x hx.2),
          stripAnsi_line_newline x hx.2]

/-- C4 counterexample: for a Logger with a console prefix, the bytes
appended to the log file are not the console bytes with ANSI escapes
removed — the console line carries the `"gemini: "` prefix
(src/io.rs:124-126) that the file line lacks. -/
theorem claim_C4_counterexample :
    (prefixedFileLogger.log okLogFS "hello").2.1 ≠
      stripAnsi ((prefixedFileLogger.log okLogFS "hello").2.2) := by
  decide

/-- C4 (amended): for a Logger with no prefix, not quiet, a bound log file
and succeeding I/O, and for input whose lines carry no trailing whitespace
and no unterminated ANSI escape sequence, the bytes appended to the log
file equal the console bytes with all ANSI escape sequences removed; in
general each sink is the concatenation, over the non-blank lines only, of
that line's chunk terminated by exactly one newline (console: prefix and
`trim_end` applied; file: ANSI-stripped, untrimmed).  With a prefix the
byte-for-byte relation fails (see the counterexample) because the console
line alone carries `"<prefix>: "` and trailing-whitespace trimming. -/
theorem claim_C4 (l : Logger) (fs : LogFS) (text : String) (p : Path)
    (hpfx : l.prefix_ = none) (hq : l.quiet = false)
    (hf : l.log_file = some p) (ho : fs.openOk = true)
    (hw : fs.writeOk = true)
    (hlines : ∀ line ∈ rustLines text,
      rustTrimEnd line = line ∧ stripEnd .normal line.data = .normal) :
    (l.log fs text).2.1 = stripAnsi ((l.log fs text).2.2) ∧
    (l.log fs text).2.1 =
      concatAll (((rustLines text).filter (fun x => !(isBlank x))).map
        (fun x => stripAnsi x ++ "\n")) ∧
    (l.log fs text).2.2 =
      concatAll (((rustLines text).filter (fun x => !(isBlank x))).map
        (fun x => x ++ "\n")) := by
  have hfiltered : ∀ line ∈ (rustLines text).filter (fun x => !(isBlank x)),
      rustTrimEnd line = line ∧ stripEnd .normal line.data = .normal :=
    fun line hl => hlines line (List.mem_of_mem_filter hl)
  obtain ⟨h1, h2⟩ := concat_chunks_strip l hpfx hq _ hfiltered
  rw [Logger.log, logLines_ok_spec l fs p hf ho hw]
  exact ⟨h2, rfl, h1⟩

theorem claim_C4_witness :
    (plainFileLogger.log okLogFS "hi").2.1 =
      stripAnsi ((plainFileLogger.log okLogFS "hi").2.2) :=
  (claim_C4 plainFileLogger okLogFS "hi" ["benchmark.txt"] (by rfl)
    (by rfl) (by rfl) (by rfl) (by rfl) (by decide)).1

/-! ## Claim C9 -/

theorem renderOutcome_isSome (v : Verification) :
    (renderOutcome v).isSome = true := by
  unfold renderOutcome
  rcases he : v.errors with _ | ⟨e, es⟩ <;>
    rcases hw : v.warnings with _ | ⟨w, ws⟩ <;> simp

/-- Over a function that never returns `none`, `mapOption` is the plain
`map` (with an arbitrary default for `getD`). -/
theorem mapOption_eq {α β : Type} (d : β) (f : α → Option β) :
    ∀ L : List α, (∀ a ∈ L, (f a).isSome = true) →
      mapOption f L = some (L.map (fun a => (f a).getD d)) := by
  intro L
  induction L with
  | nil => intro _; rfl
  | cons a as ih =>
      intro h
      have ha := h a (List.mem_cons_self a as)
      rcases hfa : f a with _ | b
      · rw [hfa] at ha; cases ha
      · have has := ih (fun x hx => h x (List.mem_cons_of_mem a hx))
        simp [mapOption, hfa, has]

theorem renderGroup_eq (g : String × List Verification) :
    renderGroup g = some ((cyan "|" ++ " " ++ cyan g.1) ::
      g.2.map (fun v => (renderOutcome v).getD "")) := by
  unfold renderGroup
  rw [mapOption_eq "" renderOutcome g.2 (fun v _ => renderOutcome_isSome v)]

/-- Explicit form of `reportTexts`: it never panics and renders the full
summary block. -/
theorem reportTexts_eq (vs : List Verification) :
    reportTexts vs = some
      ([cyan border_buffer, cyan "Verification Summary",
        cyan mid_line_buffer] ++
        ((groupByFramework vs).map (fun g =>
          (cyan "|" ++ " " ++ cyan g.1) ::
            g.2.map (fun v => (renderOutcome v).getD ""))).flatten ++
        [cyan border_buffer ++ clearSeq]) := by
  unfold reportTexts
  rw [mapOption_eq [] renderGroup (groupByFramework vs)
    (fun g _ => by rw [renderGroup_eq g]; rfl)]
  have : ∀ g : String × List Verification,
      (renderGroup g).getD [] = (cyan "|" ++ " " ++ cyan g.1) ::
        g.2.map (fun v => (renderOutcome v).getD "") := by
    intro g
    rw [renderGroup_eq g]
    rfl
  simp only [this]

/-- C9: in `report_verifications`, the accesses `errors.get(0).unwrap()`
and `warnings.get(0).unwrap()` (src/io.rs:242, 250) can never panic: each
is reached only under the hypothesis that the corresponding list is
non-empty, so the `none` branch of the embedded `head?` match is
unreachable — `renderOutcome` always returns `some`, and so does the whole
rendered report. -/
theorem claim_C9 (vs : List Verification) :
    (∀ v : Verification, (renderOutcome v).isSome = true) ∧
    (reportTexts vs).isSome = true := by
  refine ⟨renderOutcome_isSome, ?_⟩
  rw [reportTexts_eq vs]
  rfl

/-! ## Claim C1 -/

/-- Any `'-'` inside a cyan-colored padded field comes from the field's
own text: the escape codes and the space padding contain no `'-'`. -/
theorem dash_mem_of_mem_cyan_padTo {s : String} {w : Nat}
    (h : '-' ∈ (cyan (padTo s w)).data) : '-' ∈ s.data := by
  simp only [cyan, colorize, padTo, String.data_append, List.mem_append,
    or_assoc] at h
  rcases h with h | h | h | h | h | h | h | h
  · exact absurd h (by decide)
  · exact absurd h (by decide)
  · exact absurd h (by decide)
  · exact absurd h (by decide)
  · exact h
  · rcases List.mem_replicate.mp h with ⟨-, hc⟩
    cases hc
  · exact absurd h (by decide)
  · exact absurd h (by decide)

/-- C1: in the rendered verification summary, an outcome with non-empty
`errors` produces a line showing `ERROR` and the first error's
`short_message` regardless of warnings (src/io.rs:236-243); an outcome
with empty `errors` and non-empty `warnings` produces a line showing
`WARN` and the first warning's `short_message` (src/io.rs:244-251); and an
outcome with both empty produces a `PASS` line with nothing after the
padded `PASS` field — in particular no `" - "` separator: any `'-'` in
that line can only come from the `type_name` itself. -/
theorem claim_C1 (v : Verification) :
    (∀ e es, v.errors = e :: es →
      renderOutcome v = some (cyan (padTo "|" 8) ++
        cyan (padTo v.type_name 13) ++ ": " ++
        red (padTo "ERROR" 5) ++ " - " ++ e.short_message)) ∧
    (v.errors = [] → ∀ w ws, v.warnings = w :: ws →
      renderOutcome v = some (cyan (padTo "|" 8) ++
        cyan (padTo v.type_name 13) ++ ": " ++
        yellow (padTo "WARN" 5) ++ " - " ++ w.short_message)) ∧
    (v.errors = [] → v.warnings = [] →
      renderOutcome v = some (cyan (padTo "|" 8) ++
        cyan (padTo v.type_name 13) ++ ": " ++ green (padTo "PASS" 5)) ∧
      ('-' ∈ (cyan (padTo "|" 8) ++ cyan (padTo v.type_name 13) ++ ": " ++
        green (padTo "PASS" 5)).data → '-' ∈ v.type_name.data)) := by
  refine ⟨fun e es he => ?_, fun he w ws hw => ?_, fun he hw => ⟨?_, ?_⟩⟩
  · unfold renderOutcome
    simp [he]
  · unfold renderOutcome
    simp [he, hw]
  · unfold renderOutcome
    simp [he, hw]
  · intro hmem
    simp only [String.data_append] at hmem
    rcases List.mem_append.mp hmem with h1 | h1
    swap
    · exact absurd h1 (by decide)
    rcases List.mem_append.mp h1 with h2 | h2
    swap
    · exact absurd h2 (by decide)
    rcases List.mem_append.mp h2 with h3 | h3
    · exact absurd h3 (by decide)
    · exact dash_mem_of_mem_cyan_padTo h3

theorem claim_C1_witness :
    renderOutcome vPlaintext = some (cyan (padTo "|" 8) ++
      cyan (padTo "plaintext" 13) ++ ": " ++
      red (padTo "ERROR" 5) ++ " - " ++ "timeout") :=
  (claim_C1 vPlaintext).1 { short_message := "timeout" } [] rfl

/-! ## Claim C6 -/

theorem lookupGroup_insert (groups : List (String × List Verification))
    (v : Verification) (n : String) :
    lookupGroup (insertVerification groups v) n =
      if n = v.framework_name then lookupGroup groups n ++ [v]
      else lookupGroup groups n := by
  induction groups with
  | nil =>
      by_cases h : n = v.framework_name
      · simp [insertVerification, lookupGroup, List.find?, h]
      · have hb : (v.framework_name == n) = false := by
          simp only [beq_eq_false_iff_ne, ne_eq]
          exact fun he => h he.symm
        simp [insertVerification, lookupGroup, List.find?, h, hb]
  | cons g rest ih =>
      rcases g with ⟨name, l⟩
      by_cases hname : name = v.framework_name
      · by_cases hn : n = v.framework_name
        · have hb : (v.framework_name == n) = true := by simp [hn]
          simp [insertVerification, hname, lookupGroup, List.find?, hb, hn]
        · have hb : (v.framework_name == n) = false := by
            simp only [beq_eq_false_iff_ne, ne_eq]
            exact fun he => hn he.symm
          simp [insertVerification, hname, lookupGroup, List.find?, hb, hn]
      · by_cases hcmp : (name == n) = true
        · have hne : ¬ n = v.framework_name := by
            intro he
            exact hname ((eq_of_beq hcmp).trans he)
          simp [insertVerification, hname, lookupGroup, List.find?, hcmp,
            hne]
        · simp only [insertVerification, if_neg hname, lookupGroup,
            List.find?, hcmp]
          simpa [lookupGroup] using ih

theorem lookupGroup_groupBy (vs : List Verification) (n : String) :
    lookupGroup (groupByFramework vs) n =
      vs.filter (fun v => v.framework_name == n) := by
  induction vs using List.reverseRecOn with
  | nil => rfl
  | append_singleton vs v ih =>
      rw [groupByFramework, List.foldl_append]
      rw [groupByFramework] at ih
      simp only [List.foldl_cons, List.foldl_nil]
      rw [lookupGroup_insert, List.filter_append]
      by_cases h : n = v.framework_name
      · subst h
        simp [ih]
      · have hb : (v.framework_name == n) = false := by
          simp only [beq_eq_false_iff_ne, ne_eq]
          intro he
          exact h he.symm
        simp [h, ih, hb]

theorem insertVerification_names (groups : List (String × List Verification))
    (v : Verification) :
    (insertVerification groups v).map Prod.fst =
      if v.framework_name ∈ groups.map Prod.fst then groups.map Prod.fst
      else groups.map Prod.fst ++ [v.framework_name] := by
  induction groups with
  | nil => simp [insertVerification]
  | cons g rest ih =>
      rcases g with ⟨name, l⟩
      by_cases h : name = v.framework_name
      · simp [insertVerification, h]
      · by_cases h2 : v.framework_name ∈ rest.map Prod.fst
        · simp [insertVerification, h, ih, h2, Ne.symm h]
        · simp [insertVerification, h, ih, h2, Ne.symm h]

theorem groupBy_names_nodup (vs : List Verification) :
    ((groupByFramework vs).map Prod.fst).Nodup := by
  induction vs using List.reverseRecOn with
  | nil => simp [groupByFramework]
  | append_singleton vs v ih =>
      rw [groupByFramework, List.foldl_append]
      rw [groupByFramework] at ih
      simp only [List.foldl_cons, List.foldl_nil]
      rw [insertVerification_names]
      by_cases h : v.framework_name ∈
          (List.foldl insertVerification [] vs).map Prod.fst
      · simpa [h] using ih
      · simp only [if_neg h]
        exact List.Nodup.append ih (List.nodup_singleton _)
          (by simpa using h)

theorem find_eq_of_mem_nodup :
    ∀ groups : List (String × List Verification),
      (groups.map Prod.fst).Nodup →
      ∀ g ∈ groups, groups.find? (fun x => x.1 == g.1) = some g := by
  intro groups
  induction groups with
  | nil => intro _ g hg; cases hg
  | cons a rest ih =>
      intro hnd g hg
      cases hg with
      | head => simp [List.find?]
      | tail _ hmem =>
          have hne : (a.1 == g.1) = false := by
            simp only [beq_eq_false_iff_ne, ne_eq]
            intro he
            have : a.1 ∈ rest.map Prod.fst :=
              he ▸ List.mem_map_of_mem Prod.fst hmem
            exact (List.nodup_cons.mp hnd).1 this
          simp only [List.find?, hne]
          exact ih (List.nodup_cons.mp hnd).2 g hmem

/-- Every group of the grouping holds exactly the outcomes supplied for
its framework, in their original relative order. -/
theorem groupBy_mem_eq (vs : List Verification)
    (g : String × List Verification) (hg : g ∈ groupByFramework vs) :
    g.2 = vs.filter (fun v => v.framework_name == g.1) := by
  have h1 := find_eq_of_mem_nodup _ (groupBy_names_nodup vs) g hg
  have h2 := lookupGroup_groupBy vs g.1
  rw [lookupGroup, h1] at h2
  exact h2

/-- C6: the verification summary emitted by `report_verifications`
consists, in order, of an opening border of exactly 79 `'='` characters,
the title `"Verification Summary"`, a separator of exactly 79 `'-'`
characters, then for each framework group a `"| <framework_name>"` header
followed by exactly one text per outcome of that framework (in the
relative order the outcomes were supplied, as the filter equation states),
and a closing border of exactly 79 `'='` characters.  Texts are stated
with their console coloring; the borders/title are the `cyan`-wrapped
plain strings, whose inner content is exactly the 79-character lines.
Group order is the embedding's first-insertion order (the Rust `HashMap`
iteration order is unspecified; the claim constrains only the per-group
contents). -/
theorem claim_C6 (vs : List Verification) :
    border_buffer.length = 79 ∧
    border_buffer.data.all (fun c => c = '=') = true ∧
    mid_line_buffer.length = 79 ∧
    mid_line_buffer.data.all (fun c => c = '-') = true ∧
    reportTexts vs = some
      ([cyan border_buffer, cyan "Verification Summary",
        cyan mid_line_buffer] ++
        ((groupByFramework vs).map (fun g =>
          (cyan "|" ++ " " ++ cyan g.1) ::
            g.2.map (fun v => (renderOutcome v).getD ""))).flatten ++
        [cyan border_buffer ++ clearSeq]) ∧
    (∀ g ∈ groupByFramework vs,
      g.2 = vs.filter (fun v => v.framework_name == g.1)) := by
  refine ⟨by decide, by decide, by decide, by decide, reportTexts_eq vs,
    fun g hg => groupBy_mem_eq vs g hg⟩

theorem claim_C6_witness :
    ([vJson, vPlaintext].filter
      (fun v => v.framework_name == "gemini")) = [vJson, vPlaintext] :=
  ((claim_C6 [vJson, vPlaintext]).2.2.2.2.2
    ("gemini", [vJson, vPlaintext]) (by decide)).symm

/-! ## Claim C7 -/

/-- C7: `get_tfb_dir` (src/io.rs:175-196) returns
`InvalidFrameworkBenchmarksDirError` if and only if the resolved root
directory lacks a `frameworks` sub-directory, and the resolution follows
every source: a set `TFB_HOME` wins, else the home directory's `.tfb` when
it exists, else the current working directory. -/
theorem claim_C7 (env : TfbEnv) :
    (get_tfb_dir env = .error .invalidFrameworkBenchmarksDirError ↔
      env.pathExists (resolveTfbPath env ++ ["frameworks"]) = false) ∧
    (get_tfb_dir env ≠ .error .invalidFrameworkBenchmarksDirError →
      get_tfb_dir env = .ok (resolveTfbPath env)) ∧
    (∀ h, env.tfb_home = some h → resolveTfbPath env = [h]) ∧
    (∀ hd, env.tfb_home = none → env.home_dir = some hd →
      env.pathExists (hd ++ [".tfb"]) = true →
      resolveTfbPath env = hd ++ [".tfb"]) ∧
    (∀ hd cd, env.tfb_home = none → env.home_dir = some hd →
      env.pathExists (hd ++ [".tfb"]) = false → env.current_dir = some cd →
      resolveTfbPath env = cd) := by
  refine ⟨?_, ?_, fun h hh => ?_, fun hd hh hhd hex => ?_,
    fun hd cd hh hhd hex hcd => ?_⟩
  · unfold get_tfb_dir
    cases hex : env.pathExists (resolveTfbPath env ++ ["frameworks"]) <;>
      simp [hex]
  · unfold get_tfb_dir
    cases hex : env.pathExists (resolveTfbPath env ++ ["frameworks"]) <;>
      simp [hex]
  · unfold resolveTfbPath
    rw [hh]
  · unfold resolveTfbPath
    rw [hh, hhd]
    simp [hex]
  · unfold resolveTfbPath
    rw [hh, hhd]
    simp [hex, hcd]

theorem claim_C7_witness :
    get_tfb_dir emptyEnv = .error .invalidFrameworkBenchmarksDirError :=
  (claim_C7 emptyEnv).1.mpr rfl

/-! ## Claim C10 -/

/-- C10: for every Logger whose `log_file` is unset (console-only
configuration), `log` returns `Ok(())` for every input text — no input can
cause the console-only path of `Logger::log` (src/io.rs:107-132) to return
an error. -/
theorem claim_C10 (l : Logger) (fs : LogFS) (text : String)
    (h : l.log_file = none) :
    (l.log fs text).1 = .ok :=
  logLines_no_file l fs h (rustLines text)

theorem claim_C10_witness :
    (consoleLogger.log
      { openOk := false, writeOk := false } "hello\nworld").1 = .ok :=
  claim_C10 consoleLogger
    { openOk := false, writeOk := false } "hello\nworld" rfl

/-! ## Claim C8 -/

/-- C8: for every Logger with `quiet = true`, a `log` call produces no
console output, while the bytes appended to the bound log file are
identical to those that would be appended with `quiet = false` — the file
sink of `Logger::log` (src/io.rs:111-129) is unaffected by the quiet
flag. -/
theorem claim_C8 (l : Logger) (fs : LogFS) (text : String)
    (h : l.quiet = true) :
    (l.log fs text).2.2 = "" ∧
    (l.log fs text).2.1 =
      (({ l with quiet := false } : Logger).log fs text).2.1 := by
  have hl : l = { l with quiet := true } := by
    cases l
    simp_all
  rw [hl]
  exact ⟨(logLines_quiet l fs (rustLines text)).1,
    (logLines_quiet l fs (rustLines text)).2.2⟩

theorem claim_C8_witness :
    (quietFileLogger.log okLogFS "hello").2.2 = "" ∧
    (quietFileLogger.log okLogFS "hello").2.1 =
      (({ quietFileLogger with quiet := false } : Logger).log okLogFS
        "hello").2.1 :=
  claim_C8 quietFileLogger okLogFS "hello" rfl

/-! ## Claim C5 -/

/-- C5: for every Logger whose `log_dir` is unset, `set_test`
(src/io.rs:74-87) followed by `set_log_file` (src/io.rs:94-103) leaves
`log_file` unset, is a total (error-free) operation in the embedding, and
changes neither `log_dir` nor `log_file`. -/
theorem claim_C5 (l : Logger) (fs1 fs2 : DirFS) (t : Test) (fn : String)
    (h : l.log_dir = none) :
    ((l.set_test fs1 t).set_log_file fs2 fn).log_dir = l.log_dir ∧
    ((l.set_test fs1 t).set_log_file fs2 fn).log_file = l.log_file ∧
    (l.log_file = none →
      ((l.set_test fs1 t).set_log_file fs2 fn).log_file = none) := by
  have h1 : l.set_test fs1 t = { l with prefix_ := some t.get_name } := by
    unfold Logger.set_test
    rw [h]
  have h2 : ({ l with prefix_ := some t.get_name } : Logger).set_log_file
      fs2 fn = { l with prefix_ := some t.get_name } := by
    unfold Logger.set_log_file
    simp [h]
  rw [h1, h2]
  exact ⟨h.symm ▸ rfl, rfl, fun hlf => hlf⟩

theorem claim_C5_witness :
    ((Logger.default.set_test
        { pathExists := fun _ => false, createDirOk := fun _ => false,
          createFileOk := fun _ => false } ⟨"gemini"⟩).set_log_file
        { pathExists := fun _ => false, createDirOk := fun _ => false,
          createFileOk := fun _ => false } "benchmark.txt").log_file
      = none :=
  (claim_C5 Logger.default _ _ ⟨"gemini"⟩ "benchmark.txt" rfl).2.2 rfl

end TFB
